import Mathlib

/-!
Shallow embedding of the SesameHR oauth-client library (JavaScript) in Lean 4.

Scope of the embedding:
  * `InMemoryTTLStore` (src/utils/InMemoryTTLStore.js): an in-memory
    key/value store with absolute-time expiry, a capacity bound with an
    aggressive sweep on overflow, and lazy expiry on access.
  * `SesameSSO` (src/SesameSSO.js): the CSRF-state lifecycle
    (`getLoginUrl`, `_validateState`) and the network operations
    (`exchangeCodeForToken`, `getUserInfo`, `getSesameCredentials`,
    `refreshToken`, `revokeToken`), modelled as pure functions that
    thread the store state, take the current time `now : Nat`
    (milliseconds) explicitly in place of `Date.now()`, take network
    oracles in place of axios, and return the ordered list of network
    requests they issue.

JavaScript `Map` is modelled as an association list with unique keys kept
in insertion order; `undefined` is modelled by `JSVal.undef`.
-/

/-- A JavaScript value stored in the TTL store: either `undefined` or a
defined payload (payloads are abstracted as strings). -/
inductive JSVal where
  | undef
  | val (s : String)
deriving DecidableEq, Repr

/-- One record of the store's internal map: `{ value, expiresAt }`. -/
structure StoreRec where
  value : JSVal
  expiresAt : Nat
deriving DecidableEq, Repr

/-- JS `Map.prototype.set`: overwrite in place when the key exists
(keys are unique in a JS `Map`, so replacing the first match is exact),
append at the end otherwise. -/
def mapSet : List (String × StoreRec) → String → StoreRec →
    List (String × StoreRec)
  | [], k, r => [(k, r)]
  | p :: m, k, r => if p.1 = k then (k, r) :: m else p :: mapSet m k r

/-- JS `Map.prototype.delete`: removes the entry for the key. -/
def mapDelete (m : List (String × StoreRec)) (k : String) :
    List (String × StoreRec) :=
  m.filter (fun p => p.1 ≠ k)

/-- JS `Map.prototype.get`. -/
def mapGet : List (String × StoreRec) → String → Option StoreRec
  | [], _ => none
  | p :: m, k => if p.1 = k then some p.2 else mapGet m k

/-- Structure `InMemoryTTLStore`: configuration plus the internal `Map`.
The background timer is not part of the pure state; the sweep it
performs is the `cleanup` operation below. -/
structure InMemoryTTLStore where
  ttlMs : Nat
  max : Nat
  store : List (String × StoreRec)
deriving DecidableEq, Repr

namespace InMemoryTTLStore

/-- Method `cleanup(aggressive)`: delete every entry that is expired, or every
entry whatsoever when `aggressive` is true (the code's overflow sweep). -/
def cleanup (s : InMemoryTTLStore) (now : Nat) (aggressive : Bool) :
    InMemoryTTLStore :=
  { s with store := s.store.filter (fun p => !(aggressive || decide (p.2.expiresAt ≤ now))) }

/-- Method `set(key, value, expiresAt = Date.now() + this.ttlMs)`: when the map
is at or over capacity, run the aggressive cleanup first, then insert. -/
def set (s : InMemoryTTLStore) (now : Nat) (key : String) (value : JSVal)
    (expiresAt : Option Nat) : InMemoryTTLStore :=
  let e := expiresAt.getD (now + s.ttlMs)
  let s := if s.store.length ≥ s.max then s.cleanup now true else s
  { s with store := mapSet s.store key ⟨value, e⟩ }

/-- Method `get(key)`: returns the record's value when the record exists and
`now < expiresAt`; an expired record is purged on access and `undefined`
is returned. Returns the (possibly purged) store alongside the value. -/
def get (s : InMemoryTTLStore) (now : Nat) (key : String) :
    JSVal × InMemoryTTLStore :=
  match mapGet s.store key with
  | none => (JSVal.undef, s)
  | some r =>
    if r.expiresAt ≤ now then
      (JSVal.undef, { s with store := mapDelete s.store key })
    else
      (r.value, s)

/-- Method `has(key)`: `this.get(key) !== undefined`, with `get`'s purge effect. -/
def has (s : InMemoryTTLStore) (now : Nat) (key : String) :
    Bool × InMemoryTTLStore :=
  let (v, s) := s.get now key
  (v ≠ JSVal.undef, s)

/-- Method `delete(key)`. -/
def delete (s : InMemoryTTLStore) (key : String) : InMemoryTTLStore :=
  { s with store := mapDelete s.store key }

/-- An entry for `key` is present at time `now`: a record exists and the
current time is strictly before its `expiresAt`. -/
def present (s : InMemoryTTLStore) (now : Nat) (key : String) : Bool :=
  match mapGet s.store key with
  | none => false
  | some r => decide (now < r.expiresAt)

end InMemoryTTLStore

/-! ## The `SesameSSO` client (src/SesameSSO.js) -/

/-- Static client configuration relevant to the URL builder. -/
structure SSOConfig where
  clientId : String
  redirectUri : String
  defaultScope : String
deriving DecidableEq, Repr

/-- The shape of an axios error as consumed by `formatOAuthError`:
an optional HTTP status, the optional provider JSON body fields
(`error`, `error_description`, `message`) and the low-level
`error.message`. -/
structure HttpErr where
  status : Option Nat
  respError : Option String
  respErrorDescription : Option String
  respMessage : Option String
  message : String
deriving DecidableEq, Repr

/-- JS `a || b` on an optional string (empty string is falsy). -/
def jsOrStr (o : Option String) (d : String) : String :=
  match o with
  | some s => if s = "" then d else s
  | none => d

/-- Helper `formatOAuthError(error, context)` from src/utils/helpers.js. -/
def formatOAuthError (e : HttpErr) (context : String) : String :=
  let errorCode := jsOrStr e.respError "unknown"
  let errorMsg := jsOrStr e.respErrorDescription
    (jsOrStr e.respMessage (if e.message = "" then "Unknown error" else e.message))
  "OAuth " ++ context ++ " failed" ++
    (match e.status with
     | some st => " [" ++ toString st ++ "]"
     | none => "") ++
    " (" ++ errorCode ++ "): " ++ errorMsg

/-- The distinguishable failures the `SesameSSO` methods can raise. -/
inductive SSOError where
  | authCodeRequired
  | invalidState
  | accessTokenRequired
  | refreshTokenRequired
  | tokenRequired
  | revokeEndpointNotFound
  | oauthError (message : String)
deriving DecidableEq, Repr

/-- The exact JS `Error` message for each failure. -/
def SSOError.errorMessage : SSOError → String
  | .authCodeRequired => "Authorization code is required"
  | .invalidState => "Invalid or expired state parameter. Possible CSRF attack."
  | .accessTokenRequired => "access_token is required"
  | .refreshTokenRequired => "refresh_token is required"
  | .tokenRequired => "token is required"
  | .revokeEndpointNotFound => "Token revocation endpoint not found at /oauth/revoke"
  | .oauthError m => m

/-- A network request issued by the client, identified by endpoint. -/
inductive Request where
  | tokenPost (code : String)
  | userInfoGet (accessToken : String)
  | sesameTokenGet (accessToken : String)
  | refreshPost (refreshTok : String)
  | revokePost (token : String) (hint : String)
deriving DecidableEq, Repr

/-- The JSON body of a 2xx response from the token endpoint; each field
may be absent. -/
structure TokenData where
  access_token : Option String
  refresh_token : Option String
  expires_in : Option Nat
  token_type : Option String
deriving DecidableEq, Repr

/-- JS truthiness of `data?.access_token`: present and non-empty. -/
def accessTokenTruthy (d : TokenData) : Bool :=
  match d.access_token with
  | some t => t ≠ ""
  | none => false

/-- Network oracles standing in for axios: the response each endpoint
would give for the request data sent. -/
structure NetOracles where
  token : String → Except HttpErr TokenData
  userinfo : String → Except HttpErr String
  sesameToken : String → Except HttpErr String

namespace SesameSSO

/-- JS object property assignment `o[k] = v`: overwrite in place when
the key exists (object keys are unique), append otherwise. -/
def objSet : List (String × String) → String → String → List (String × String)
  | [], k, v => [(k, v)]
  | p :: o, k, v => if p.1 = k then (k, v) :: o else p :: objSet o k v

/-- Query parameters built by `getLoginUrl`: the object literal with
`client_id`, `redirect_uri`, `response_type`, `state`, the spread of
`extraParams` (last write wins), and then `params.scope = finalScope`
assigned only when the resolved scope is non-empty. `scope = none`
models an omitted per-call scope (falls back to the default scope). -/
def getLoginUrlParams (cfg : SSOConfig) (scope : Option String)
    (extraParams : List (String × String)) (state : String) :
    List (String × String) :=
  let finalScope := scope.getD cfg.defaultScope
  let base := [("client_id", cfg.clientId), ("redirect_uri", cfg.redirectUri),
               ("response_type", "code"), ("state", state)]
  let ps := extraParams.foldl (fun o p => objSet o p.1 p.2) base
  if finalScope = "" then ps else objSet ps "scope" finalScope

/-- Method `getLoginUrl`: stores the freshly generated state (value
`{ createdAt: Date.now() }`, default expiry) and returns the query
parameters together with the state and the updated store. The random
state is an explicit argument in place of `generateRandomHex(32)`. -/
def getLoginUrl (store : InMemoryTTLStore) (now : Nat) (cfg : SSOConfig)
    (scope : Option String) (extraParams : List (String × String))
    (state : String) :
    List (String × String) × String × InMemoryTTLStore :=
  let store := store.set now state (JSVal.val ("createdAt:" ++ toString now)) none
  (getLoginUrlParams cfg scope extraParams state, state, store)

/-- Method `_validateState(state)`: `!state` short-circuits (the store is not
consulted for the empty string); otherwise `has` (with its lazy purge),
and on presence the entry is deleted and validation succeeds. -/
def validateState (store : InMemoryTTLStore) (now : Nat) (state : String) :
    Bool × InMemoryTTLStore :=
  if state = "" then (false, store)
  else
    let hs := store.has now state
    if hs.1 then (true, hs.2.delete state) else (false, hs.2)

/-- Method `_fetchToken(code)`: POSTs to the token endpoint; a missing or
empty `access_token` in a 2xx body is an error; any failure is wrapped
by `formatOAuthError` with context `token exchange`. -/
def fetchToken (code : String) (net : String → Except HttpErr TokenData) :
    Except SSOError TokenData × List Request :=
  match net code with
  | .error e =>
      (.error (.oauthError (formatOAuthError e "token exchange")), [.tokenPost code])
  | .ok data =>
      if accessTokenTruthy data then
        (.ok data, [.tokenPost code])
      else
        (.error (.oauthError (formatOAuthError
            ⟨none, none, none, none, "Token response missing access_token"⟩
            "token exchange")), [.tokenPost code])

/-- Method `getUserInfo(accessToken)`. -/
def getUserInfo (accessToken : String)
    (net : String → Except HttpErr String) :
    Except SSOError String × List Request :=
  if accessToken = "" then (.error .accessTokenRequired, [])
  else
    match net accessToken with
    | .ok data => (.ok data, [.userInfoGet accessToken])
    | .error e =>
        (.error (.oauthError (formatOAuthError e "userinfo fetch")),
         [.userInfoGet accessToken])

/-- Method `getSesameCredentials(accessToken)`. -/
def getSesameCredentials (accessToken : String)
    (net : String → Except HttpErr String) :
    Except SSOError String × List Request :=
  if accessToken = "" then (.error .accessTokenRequired, [])
  else
    match net accessToken with
    | .ok data => (.ok data, [.sesameTokenGet accessToken])
    | .error e =>
        (.error (.oauthError (formatOAuthError e "sesame credentials fetch")),
         [.sesameTokenGet accessToken])

/-- Method `refreshToken(refreshToken)`. -/
def refreshToken (refreshTok : String)
    (net : String → Except HttpErr TokenData) :
    Except SSOError TokenData × List Request :=
  if refreshTok = "" then (.error .refreshTokenRequired, [])
  else
    match net refreshTok with
    | .error e =>
        (.error (.oauthError (formatOAuthError e "token refresh")),
         [.refreshPost refreshTok])
    | .ok data =>
        if accessTokenTruthy data then
          (.ok data, [.refreshPost refreshTok])
        else
          (.error (.oauthError (formatOAuthError
              ⟨none, none, none, none, "Token response missing access_token"⟩
              "token refresh")), [.refreshPost refreshTok])

/-- Method `revokeToken(token, tokenTypeHint)`: a 404 is reported as the
dedicated endpoint-not-found error. -/
def revokeToken (token : String) (tokenTypeHint : String)
    (net : String → String → Except HttpErr Unit) :
    Except SSOError Bool × List Request :=
  if token = "" then (.error .tokenRequired, [])
  else
    match net token tokenTypeHint with
    | .ok _ => (.ok true, [.revokePost token tokenTypeHint])
    | .error e =>
        if e.status = some 404 then
          (.error .revokeEndpointNotFound, [.revokePost token tokenTypeHint])
        else
          (.error (.oauthError (formatOAuthError e "token revoke")),
           [.revokePost token tokenTypeHint])

/-- Result of a successful `exchangeCodeForToken`. -/
structure ExchangeResult where
  accessToken : String
  refreshTok : Option String
  expiresIn : Option Nat
  tokenType : Option String
  userData : Option String
  sesameCredentials : Option String
deriving DecidableEq, Repr

/-- Method `exchangeCodeForToken(code, state, options)`: empty-code check,
then state validation (CSRF), then the token request, then optionally
userinfo and Sesame-credential fetches. Returns the outcome, the store
after the call, and the ordered list of network requests issued. -/
def exchangeCodeForToken (store : InMemoryTTLStore) (now : Nat)
    (code state : String) (includeUserInfo includeSesameCredentials : Bool)
    (net : NetOracles) :
    Except SSOError ExchangeResult × InMemoryTTLStore × List Request :=
  if code = "" then (.error .authCodeRequired, store, [])
  else
    let v := validateState store now state
    if v.1 = false then (.error .invalidState, v.2, [])
    else
      let store := v.2
      let t := fetchToken code net.token
      match t.1 with
      | .error e => (.error e, store, t.2)
      | .ok data =>
        let acc := data.access_token.getD ""
        let u :=
          if includeUserInfo then
            let r := getUserInfo acc net.userinfo
            (r.1.map some, r.2)
          else ((.ok none : Except SSOError (Option String)), [])
        match u.1 with
        | .error e => (.error e, store, t.2 ++ u.2)
        | .ok userData =>
          let c :=
            if includeSesameCredentials then
              let r := getSesameCredentials acc net.sesameToken
              (r.1.map some, r.2)
            else ((.ok none : Except SSOError (Option String)), [])
          match c.1 with
          | .error e => (.error e, store, t.2 ++ u.2 ++ c.2)
          | .ok creds =>
              (.ok ⟨acc, data.refresh_token, data.expires_in, data.token_type,
                    userData, creds⟩,
               store, t.2 ++ u.2 ++ c.2)

end SesameSSO

/-! ## Auxiliary definitions for the verification -/

/-- Observable presence of `key` through the raw map: a record exists,
is unexpired, and holds a defined value. This is exactly what `has`
reports (proved below), stated directly on the store contents. -/
def InMemoryTTLStore.presentDefined (s : InMemoryTTLStore) (now : Nat)
    (key : String) : Bool :=
  match mapGet s.store key with
  | none => false
  | some r => decide (now < r.expiresAt) && decide (r.value ≠ JSVal.undef)

/-- One public operation on the TTL store. -/
inductive StoreOp where
  | opSet (k : String) (v : JSVal) (e : Option Nat)
  | opGet (k : String)
  | opHas (k : String)
  | opDelete (k : String)
  | opCleanup (aggressive : Bool)
deriving DecidableEq, Repr

/-- Apply one operation (at its own current time) to the store. -/
def applyOp (s : InMemoryTTLStore) (now : Nat) : StoreOp → InMemoryTTLStore
  | .opSet k v e => s.set now k v e
  | .opGet k => (s.get now k).2
  | .opHas k => (s.has now k).2
  | .opDelete k => s.delete k
  | .opCleanup a => s.cleanup now a

/-- Run a timed sequence of operations. -/
def runOps (s : InMemoryTTLStore) : List (Nat × StoreOp) → InMemoryTTLStore
  | [] => s
  | (now, op) :: rest => runOps (applyOp s now op) rest

/-- Lookup of a query-parameter key in the built parameter list. -/
def objLookup : List (String × String) → String → Option String
  | [], _ => none
  | p :: o, k => if p.1 = k then some p.2 else objLookup o k

/-! ## Helper lemmas about the map primitives -/

theorem mapGet_mapSet_self (m : List (String × StoreRec)) (k : String)
    (r : StoreRec) : mapGet (mapSet m k r) k = some r := by
  induction m with
  | nil => simp [mapSet, mapGet]
  | cons p m ih =>
    by_cases hp : p.1 = k
    · simp [mapSet, mapGet, hp]
    · simp [mapSet, mapGet, hp, ih]

theorem mapGet_mapDelete_self (m : List (String × StoreRec)) (k : String) :
    mapGet (mapDelete m k) k = none := by
  induction m with
  | nil => simp [mapDelete, mapGet]
  | cons p m ih =>
    by_cases hp : p.1 = k
    · simpa [mapDelete, List.filter_cons, hp] using ih
    · simpa [mapDelete, List.filter_cons, hp, mapGet] using ih

theorem length_mapSet_le (m : List (String × StoreRec)) (k : String)
    (r : StoreRec) : (mapSet m k r).length ≤ m.length + 1 := by
  induction m with
  | nil => simp [mapSet]
  | cons p m ih =>
    by_cases hp : p.1 = k
    · simp [mapSet, hp]
    · simp only [mapSet, hp, if_false, List.length_cons]
      omega

theorem cleanup_aggressive_store (s : InMemoryTTLStore) (now : Nat) :
    (s.cleanup now true).store = [] := by
  unfold InMemoryTTLStore.cleanup
  simp

theorem get_store_shape (s : InMemoryTTLStore) (now : Nat) (k : String) :
    ((s.get now k).2).max = s.max ∧ ((s.get now k).2).ttlMs = s.ttlMs ∧
    ((s.get now k).2).store.length ≤ s.store.length := by
  unfold InMemoryTTLStore.get
  cases hm : mapGet s.store k with
  | none => exact ⟨rfl, rfl, le_refl _⟩
  | some r =>
    by_cases h : r.expiresAt ≤ now
    · simp only [h, if_true]
      exact ⟨trivial, trivial, List.length_filter_le _ _⟩
    · simp only [h, if_false]
      exact ⟨trivial, trivial, le_refl _⟩

theorem set_store_eq (s : InMemoryTTLStore) (now : Nat) (k : String)
    (v : JSVal) (e : Option Nat) :
    (s.set now k v e).max = s.max ∧
    (s.set now k v e).store
      = mapSet (if s.store.length ≥ s.max then [] else s.store) k
          ⟨v, e.getD (now + s.ttlMs)⟩ := by
  unfold InMemoryTTLStore.set
  by_cases h : s.store.length ≥ s.max
  · simp only [h, if_true]
    exact ⟨rfl, by rw [cleanup_aggressive_store]⟩
  · simp only [h, if_false]
    exact ⟨trivial, trivial⟩

theorem has_fst_eq (s : InMemoryTTLStore) (now : Nat) (k : String) :
    (s.has now k).1 = decide ((s.get now k).1 ≠ JSVal.undef) := rfl

theorem has_snd_eq (s : InMemoryTTLStore) (now : Nat) (k : String) :
    (s.has now k).2 = (s.get now k).2 := rfl

theorem has_fst_eq_presentDefined (s : InMemoryTTLStore) (now : Nat)
    (k : String) : (s.has now k).1 = s.presentDefined now k := by
  rw [has_fst_eq]
  unfold InMemoryTTLStore.get InMemoryTTLStore.presentDefined
  cases hm : mapGet s.store k with
  | none => simp
  | some r =>
    by_cases h : r.expiresAt ≤ now
    · simp [h, Nat.not_lt.mpr h]
    · simp [h, Nat.lt_of_not_le h]

theorem validateState_true_mapGet_none (s : InMemoryTTLStore) (now : Nat)
    (st : String) (h : (SesameSSO.validateState s now st).1 = true) :
    mapGet (SesameSSO.validateState s now st).2.store st = none := by
  unfold SesameSSO.validateState at h ⊢
  by_cases he : st = ""
  · simp [he] at h
  · simp only [he, if_false] at h ⊢
    by_cases hh : (s.has now st).1 = true
    · simp only [hh, if_true]
      exact mapGet_mapDelete_self _ _
    · simp [hh] at h

theorem validateState_absent (s : InMemoryTTLStore) (now : Nat) (st : String)
    (h : mapGet s.store st = none) :
    SesameSSO.validateState s now st = (false, s) := by
  unfold SesameSSO.validateState
  by_cases he : st = ""
  · simp [he]
  · simp [he, InMemoryTTLStore.has, InMemoryTTLStore.get, h]

/-! ## Claim theorems -/

/-- C5: `get` returns the stored value exactly when the current time is
strictly before the entry's `expiresAt` (and the entry exists),
returning `undefined` otherwise; `has` reports exactly whether `get`
returns a defined value; and an expired-but-not-yet-swept entry is
reported absent by both `get` and `has` immediately and is purged from
the map on access. -/
theorem claim5_get_has_expiry (s : InMemoryTTLStore) (now : Nat) (k : String) :
    ((s.get now k).1 = (match mapGet s.store k with
        | none => JSVal.undef
        | some r => if now < r.expiresAt then r.value else JSVal.undef)) ∧
    ((s.has now k).1 = true ↔ (s.get now k).1 ≠ JSVal.undef) ∧
    (∀ r, mapGet s.store k = some r → r.expiresAt ≤ now →
      (s.get now k).1 = JSVal.undef ∧ (s.has now k).1 = false ∧
      mapGet ((s.get now k).2).store k = none ∧
      mapGet ((s.has now k).2).store k = none) := by
  refine ⟨?_, ?_, ?_⟩
  · unfold InMemoryTTLStore.get
    cases hm : mapGet s.store k with
    | none => rfl
    | some r =>
      by_cases h : r.expiresAt ≤ now
      · simp [h, Nat.not_lt.mpr h]
      · simp [h, Nat.lt_of_not_le h]
  · rw [has_fst_eq]
    exact decide_eq_true_iff
  · intro r hm hexp
    have hget : s.get now k
        = (JSVal.undef, { s with store := mapDelete s.store k }) := by
      unfold InMemoryTTLStore.get
      simp [hm, hexp]
    refine ⟨by rw [hget], ?_, ?_, ?_⟩
    · rw [has_fst_eq, hget]
      simp
    · rw [hget]
      exact mapGet_mapDelete_self _ _
    · rw [has_snd_eq, hget]
      exact mapGet_mapDelete_self _ _

/-- C5 witness: a store holding one entry for key `k` that expired at
time 80, observed at time 100. -/
theorem claim5_get_has_expiry_witness :
    (((InMemoryTTLStore.mk 600000 10000 [("k", ⟨JSVal.val "x", 80⟩)]).get 100 "k").1
        = (match mapGet [("k", (⟨JSVal.val "x", 80⟩ : StoreRec))] "k" with
           | none => JSVal.undef
           | some r => if 100 < r.expiresAt then r.value else JSVal.undef)) ∧
    (((InMemoryTTLStore.mk 600000 10000 [("k", ⟨JSVal.val "x", 80⟩)]).has 100 "k").1 = true
        ↔ ((InMemoryTTLStore.mk 600000 10000 [("k", ⟨JSVal.val "x", 80⟩)]).get 100 "k").1 ≠ JSVal.undef) ∧
    (∀ r, mapGet [("k", (⟨JSVal.val "x", 80⟩ : StoreRec))] "k" = some r → r.expiresAt ≤ 100 →
      ((InMemoryTTLStore.mk 600000 10000 [("k", ⟨JSVal.val "x", 80⟩)]).get 100 "k").1 = JSVal.undef ∧
      ((InMemoryTTLStore.mk 600000 10000 [("k", ⟨JSVal.val "x", 80⟩)]).has 100 "k").1 = false ∧
      mapGet (((InMemoryTTLStore.mk 600000 10000 [("k", ⟨JSVal.val "x", 80⟩)]).get 100 "k").2).store "k" = none ∧
      mapGet (((InMemoryTTLStore.mk 600000 10000 [("k", ⟨JSVal.val "x", 80⟩)]).has 100 "k").2).store "k" = none) :=
  claim5_get_has_expiry (InMemoryTTLStore.mk 600000 10000 [("k", ⟨JSVal.val "x", 80⟩)]) 100 "k"

/-- C10: a live, undeleted entry whose stored value is `undefined` is
reported absent by both `get` and `has`, indistinguishable from a
missing entry at the public interface. -/
theorem claim10_undefValueAbsent (s : InMemoryTTLStore) (now : Nat)
    (k : String) (r : StoreRec) (hfind : mapGet s.store k = some r)
    (hval : r.value = JSVal.undef) (hlive : now < r.expiresAt) :
    (s.get now k).1 = JSVal.undef ∧ (s.has now k).1 = false := by
  have hget : (s.get now k).1 = JSVal.undef := by
    unfold InMemoryTTLStore.get
    simp [hfind, Nat.not_le.mpr hlive, hval]
  refine ⟨hget, ?_⟩
  rw [has_fst_eq, hget]
  simp

/-- C10 witness: an unexpired entry (expires at 1000, observed at 0)
whose value is `undefined`. -/
theorem claim10_undefValueAbsent_witness :
    ((InMemoryTTLStore.mk 600000 10000 [("k", ⟨JSVal.undef, 1000⟩)]).get 0 "k").1 = JSVal.undef ∧
    ((InMemoryTTLStore.mk 600000 10000 [("k", ⟨JSVal.undef, 1000⟩)]).has 0 "k").1 = false :=
  claim10_undefValueAbsent (InMemoryTTLStore.mk 600000 10000 [("k", ⟨JSVal.undef, 1000⟩)])
    0 "k" ⟨JSVal.undef, 1000⟩ (by decide) rfl (by decide)

/-- C2 counterexample: a store at capacity (`max = 1`) holding the
unexpired entry `"a"` (expires at 100, current time 0). The claim says
the sweep triggered by an insertion removes only the currently expired
entries, so `"a"` should survive; the code's aggressive sweep removes
it, leaving exactly the new entry. -/
theorem claim2_counterexample_unexpiredSwept :
    (0 : Nat) < 100 ∧
    (InMemoryTTLStore.set ⟨600000, 1, [("a", ⟨JSVal.val "va", 100⟩)]⟩ 0 "b"
        (JSVal.val "vb") none).store = [("b", ⟨JSVal.val "vb", 600000⟩)] ∧
    mapGet (InMemoryTTLStore.set ⟨600000, 1, [("a", ⟨JSVal.val "va", 100⟩)]⟩ 0 "b"
        (JSVal.val "vb") none).store "a" = none := by
  refine ⟨by decide, ?_, ?_⟩ <;> rfl

/-- C2 amended: when an insertion finds the store at or over capacity,
the triggered sweep is aggressive — it removes every entry, expired or
not — and the new entry is then accepted, so the store afterwards
consists of exactly the new entry. -/
theorem claim2_overflow_amended (s : InMemoryTTLStore) (now : Nat)
    (k : String) (v : JSVal) (e : Option Nat)
    (hfull : s.max ≤ s.store.length) :
    (s.set now k v e).store = [(k, ⟨v, e.getD (now + s.ttlMs)⟩)] := by
  have h := (set_store_eq s now k v e).2
  rw [h]
  simp only [ge_iff_le, hfull, if_true]
  rfl

/-- C2 amended witness: the capacity-1 store above. -/
theorem claim2_overflow_amended_witness :
    (1 : Nat) ≤ [("a", (⟨JSVal.val "va", 100⟩ : StoreRec))].length ∧
    (InMemoryTTLStore.set ⟨600000, 1, [("a", ⟨JSVal.val "va", 100⟩)]⟩ 0 "b"
        (JSVal.val "vb") (some 42)).store = [("b", ⟨JSVal.val "vb", 42⟩)] :=
  ⟨by decide,
   claim2_overflow_amended ⟨600000, 1, [("a", ⟨JSVal.val "va", 100⟩)]⟩ 0 "b"
     (JSVal.val "vb") (some 42) (by decide)⟩

theorem set_keeps_capacity (s : InMemoryTTLStore) (now : Nat) (k : String)
    (v : JSVal) (e : Option Nat) (hmax : 1 ≤ s.max)
    (_hlen : s.store.length ≤ s.max) :
    (s.set now k v e).store.length ≤ s.max := by
  rw [(set_store_eq s now k v e).2]
  by_cases h : s.store.length ≥ s.max
  · simp only [ge_iff_le, h, if_true]
    calc (mapSet [] k ⟨v, e.getD (now + s.ttlMs)⟩).length
        ≤ [].length + 1 := length_mapSet_le _ _ _
      _ ≤ s.max := by simpa using hmax
  · have hlt : s.store.length < s.max := Nat.lt_of_not_le (by simpa using h)
    simp only [ge_iff_le, h, if_false]
    calc (mapSet s.store k ⟨v, e.getD (now + s.ttlMs)⟩).length
        ≤ s.store.length + 1 := length_mapSet_le _ _ _
      _ ≤ s.max := by omega

theorem applyOp_invariant (s : InMemoryTTLStore) (now : Nat) (op : StoreOp)
    (hmax : 1 ≤ s.max) (hlen : s.store.length ≤ s.max) :
    (applyOp s now op).max = s.max ∧ (applyOp s now op).store.length ≤ s.max := by
  cases op with
  | opSet k v e =>
      exact ⟨(set_store_eq s now k v e).1, set_keeps_capacity s now k v e hmax hlen⟩
  | opGet k =>
      have h := get_store_shape s now k
      exact ⟨h.1, le_trans h.2.2 hlen⟩
  | opHas k =>
      have h := get_store_shape s now k
      rw [show applyOp s now (.opHas k) = (s.get now k).2 from rfl]
      exact ⟨h.1, le_trans h.2.2 hlen⟩
  | opDelete k =>
      exact ⟨rfl, le_trans (List.length_filter_le _ _) hlen⟩
  | opCleanup a =>
      exact ⟨rfl, le_trans (List.length_filter_le _ _) hlen⟩

/-- C6: for every sequence of timed `set`/`get`/`has`/`delete`/sweep
operations on a store whose configured maximum is at least 1 and whose
entry count starts within bound, the entry count never exceeds the
configured maximum, and a subsequent insertion never loses the most
recently inserted entry. -/
theorem claim6_capacity_invariant (ops : List (Nat × StoreOp))
    (s : InMemoryTTLStore) (hmax : 1 ≤ s.max)
    (hlen : s.store.length ≤ s.max) :
    (runOps s ops).max = s.max ∧ (runOps s ops).store.length ≤ s.max ∧
    (∀ now k v e, mapGet ((runOps s ops).set now k v e).store k
        = some ⟨v, e.getD (now + (runOps s ops).ttlMs)⟩) := by
  induction ops generalizing s with
  | nil =>
      refine ⟨rfl, hlen, ?_⟩
      intro now k v e
      rw [(set_store_eq (runOps s []) now k v e).2]
      exact mapGet_mapSet_self _ _ _
  | cons p rest ih =>
      have hstep := applyOp_invariant s p.1 p.2 hmax hlen
      have hrun : runOps s (p :: rest) = runOps (applyOp s p.1 p.2) rest := by
        cases p; rfl
      rw [hrun]
      have ihh := ih (applyOp s p.1 p.2) (by rw [hstep.1]; exact hmax)
        (by rw [hstep.1]; exact hstep.2)
      refine ⟨by rw [ihh.1, hstep.1], by rw [← hstep.1]; exact ihh.2.1, ihh.2.2⟩

/-- C6 witness: three insertions into an empty capacity-2 store. -/
theorem claim6_capacity_invariant_witness :
    (1 : Nat) ≤ 2 ∧ ([] : List (String × StoreRec)).length ≤ 2 ∧
    ((runOps ⟨100, 2, []⟩
        [(0, .opSet "a" (JSVal.val "1") none), (1, .opSet "b" (JSVal.val "2") none),
         (2, .opSet "c" (JSVal.val "3") none)]).max = 2 ∧
     (runOps ⟨100, 2, []⟩
        [(0, .opSet "a" (JSVal.val "1") none), (1, .opSet "b" (JSVal.val "2") none),
         (2, .opSet "c" (JSVal.val "3") none)]).store.length ≤ 2 ∧
     (∀ now k v e, mapGet ((runOps ⟨100, 2, []⟩
        [(0, .opSet "a" (JSVal.val "1") none), (1, .opSet "b" (JSVal.val "2") none),
         (2, .opSet "c" (JSVal.val "3") none)]).set now k v e).store k
        = some ⟨v, e.getD (now + (runOps ⟨100, 2, []⟩
        [(0, .opSet "a" (JSVal.val "1") none), (1, .opSet "b" (JSVal.val "2") none),
         (2, .opSet "c" (JSVal.val "3") none)]).ttlMs)⟩)) :=
  ⟨by decide, by decide,
   claim6_capacity_invariant
     [(0, .opSet "a" (JSVal.val "1") none), (1, .opSet "b" (JSVal.val "2") none),
      (2, .opSet "c" (JSVal.val "3") none)] ⟨100, 2, []⟩ (by decide) (by decide)⟩

/-- C1 counterexample: an entry for the empty-string state is present
in the store (unexpired, not deleted), yet validation of the empty
string fails because `_validateState` short-circuits on `!state` before
consulting the store — so validation success is not equivalent to
presence. -/
theorem claim1_counterexample_emptyState :
    InMemoryTTLStore.present ⟨600000, 10000, [("", ⟨JSVal.val "x", 100⟩)]⟩ 0 "" = true ∧
    (SesameSSO.validateState ⟨600000, 10000, [("", ⟨JSVal.val "x", 100⟩)]⟩ 0 "").1 = false ∧
    (SesameSSO.validateState ⟨600000, 10000, [("", ⟨JSVal.val "x", 100⟩)]⟩ 0 "").2.store
      = [("", ⟨JSVal.val "x", 100⟩)] := by
  refine ⟨rfl, rfl, rfl⟩

/-- C1 amended: for every state string `s`, validation succeeds exactly
when `s` is non-empty and an entry for `s` is observably present (a
record exists, the current time is strictly before its `expiresAt`, and
its stored value is defined); never stored, already consumed, or
expired all count as absent, and validation of the empty string always
fails even when an entry for it is present. On success the entry is
deleted, so every subsequent validation of the same `s` (at any time)
fails — no replay. -/
theorem claim1_validateState_amended (s : InMemoryTTLStore) (now : Nat)
    (st : String) :
    ((SesameSSO.validateState s now st).1
        = (decide (st ≠ "") && s.presentDefined now st)) ∧
    ((SesameSSO.validateState s now st).1 = true →
      ∀ now2, (SesameSSO.validateState (SesameSSO.validateState s now st).2
          now2 st).1 = false) := by
  constructor
  · unfold SesameSSO.validateState
    by_cases he : st = ""
    · simp [he]
    · simp only [he, if_false]
      rw [← has_fst_eq_presentDefined]
      by_cases hh : (s.has now st).1 = true
      · simp [hh, he]
      · simp only [Bool.not_eq_true] at hh
        simp [hh, he]
  · intro h now2
    have habs := validateState_true_mapGet_none s now st h
    rw [validateState_absent _ now2 st habs]

/-- C1 amended witness: a store holding a live, defined-valued entry
for state `"s"`; validation succeeds once and then fails at any later
time. -/
theorem claim1_validateState_amended_witness :
    ((SesameSSO.validateState ⟨600000, 10000, [("s", ⟨JSVal.val "x", 100⟩)]⟩ 0 "s").1
        = (decide (("s" : String) ≠ "")
            && InMemoryTTLStore.presentDefined ⟨600000, 10000, [("s", ⟨JSVal.val "x", 100⟩)]⟩ 0 "s")) ∧
    ((SesameSSO.validateState ⟨600000, 10000, [("s", ⟨JSVal.val "x", 100⟩)]⟩ 0 "s").1 = true →
      ∀ now2, (SesameSSO.validateState
          (SesameSSO.validateState ⟨600000, 10000, [("s", ⟨JSVal.val "x", 100⟩)]⟩ 0 "s").2
          now2 "s").1 = false) :=
  claim1_validateState_amended ⟨600000, 10000, [("s", ⟨JSVal.val "x", 100⟩)]⟩ 0 "s"

theorem fetchToken_trace (code : String)
    (f : String → Except HttpErr TokenData) :
    (SesameSSO.fetchToken code f).2 = [Request.tokenPost code] := by
  unfold SesameSSO.fetchToken
  cases hf : f code with
  | error e => simp [hf]
  | ok d =>
    simp only [hf]
    split <;> rfl

theorem exchange_invalid (store : InMemoryTTLStore) (now : Nat)
    (code st : String) (iu isc : Bool) (net : NetOracles) (hcode : code ≠ "")
    (hv : (SesameSSO.validateState store now st).1 = false) :
    SesameSSO.exchangeCodeForToken store now code st iu isc net
      = (Except.error SSOError.invalidState,
         (SesameSSO.validateState store now st).2, []) := by
  unfold SesameSSO.exchangeCodeForToken
  simp [if_neg hcode, hv]

theorem exchange_valid_reqs (store : InMemoryTTLStore) (now : Nat)
    (code st : String) (iu isc : Bool) (net : NetOracles) (hcode : code ≠ "")
    (hv : (SesameSSO.validateState store now st).1 = true) :
    ∃ l, (SesameSSO.exchangeCodeForToken store now code st iu isc net).2.2
        = (SesameSSO.fetchToken code net.token).2 ++ l ∧
      (SesameSSO.exchangeCodeForToken store now code st iu isc net).2.1
        = (SesameSSO.validateState store now st).2 := by
  unfold SesameSSO.exchangeCodeForToken
  simp only [if_neg hcode, hv, Bool.true_eq_false, if_false]
  split
  · exact ⟨[], by simp, rfl⟩
  · split
    · exact ⟨_, rfl, rfl⟩
    · split
      · exact ⟨_, by rw [List.append_assoc], rfl⟩
      · exact ⟨_, by rw [List.append_assoc], rfl⟩

/-- C3: with a non-empty code and a state that fails validation
(invalid, expired, or already consumed), `exchangeCodeForToken` fails
with the distinguishable CSRF error and issues zero network requests;
conversely, whenever any network request is issued, state validation
succeeded and the token-endpoint request comes first. -/
theorem claim3_noRequestOnInvalidState (store : InMemoryTTLStore) (now : Nat)
    (code st : String) (iu isc : Bool) (net : NetOracles) (hcode : code ≠ "") :
    ((SesameSSO.validateState store now st).1 = false →
      (SesameSSO.exchangeCodeForToken store now code st iu isc net).1
        = Except.error SSOError.invalidState ∧
      (SesameSSO.exchangeCodeForToken store now code st iu isc net).2.2 = []) ∧
    ((SesameSSO.exchangeCodeForToken store now code st iu isc net).2.2 ≠ [] →
      (SesameSSO.validateState store now st).1 = true ∧
      (SesameSSO.exchangeCodeForToken store now code st iu isc net).2.2.head?
        = some (Request.tokenPost code)) := by
  constructor
  · intro hv
    rw [exchange_invalid store now code st iu isc net hcode hv]
    exact ⟨rfl, rfl⟩
  · intro hne
    by_cases hv : (SesameSSO.validateState store now st).1 = false
    · rw [exchange_invalid store now code st iu isc net hcode hv] at hne
      simp at hne
    · have hv2 : (SesameSSO.validateState store now st).1 = true := by
        revert hv
        cases (SesameSSO.validateState store now st).1 <;> simp
      obtain ⟨l, hl, hs⟩ := exchange_valid_reqs store now code st iu isc net hcode hv2
      refine ⟨hv2, ?_⟩
      rw [hl, fetchToken_trace]
      rfl

/-- Oracle whose token endpoint rejects every request. -/
def netRejecting : NetOracles :=
  ⟨fun _ => Except.error ⟨some 400, some "invalid_grant", none, none, "Request failed"⟩,
   fun _ => Except.ok "user", fun _ => Except.ok "creds"⟩

/-- C3 witness: a never-issued state against an empty store. -/
theorem claim3_noRequestOnInvalidState_witness :
    ("c" : String) ≠ "" ∧
    ((SesameSSO.exchangeCodeForToken ⟨600000, 10000, []⟩ 0 "c" "s" true true
        netRejecting).1 = Except.error SSOError.invalidState ∧
     (SesameSSO.exchangeCodeForToken ⟨600000, 10000, []⟩ 0 "c" "s" true true
        netRejecting).2.2 = []) :=
  ⟨by decide,
   (claim3_noRequestOnInvalidState ⟨600000, 10000, []⟩ 0 "c" "s" true true
      netRejecting (by decide)).1 rfl⟩

/-- C7: each exchange operation called with an empty required argument
fails synchronously with its input-validation error and issues zero
network requests (for `exchangeCodeForToken` the store is also left
untouched). -/
theorem claim7_emptyArgs_noNetwork (store : InMemoryTTLStore) (now : Nat)
    (st : String) (iu isc : Bool) (net : NetOracles)
    (nu ns : String → Except HttpErr String)
    (nr : String → Except HttpErr TokenData)
    (nv : String → String → Except HttpErr Unit) (hint : String) :
    SesameSSO.exchangeCodeForToken store now "" st iu isc net
      = (Except.error SSOError.authCodeRequired, store, []) ∧
    SesameSSO.getUserInfo "" nu = (Except.error SSOError.accessTokenRequired, []) ∧
    SesameSSO.getSesameCredentials "" ns
      = (Except.error SSOError.accessTokenRequired, []) ∧
    SesameSSO.refreshToken "" nr
      = (Except.error SSOError.refreshTokenRequired, []) ∧
    SesameSSO.revokeToken "" hint nv
      = (Except.error SSOError.tokenRequired, []) := by
  refine ⟨?_, rfl, rfl, rfl, rfl⟩
  unfold SesameSSO.exchangeCodeForToken
  simp

/-- C9: with an empty code, `exchangeCodeForToken` fails with the
input-validation error before state validation runs: no request is
issued, the store is returned unchanged, and a state that was valid
before the call is still valid against the returned store. -/
theorem claim9_emptyCodeBeforeState (store : InMemoryTTLStore) (now : Nat)
    (st : String) (iu isc : Bool) (net : NetOracles)
    (hvalid : (SesameSSO.validateState store now st).1 = true) :
    SesameSSO.exchangeCodeForToken store now "" st iu isc net
      = (Except.error SSOError.authCodeRequired, store, []) ∧
    (SesameSSO.validateState
        (SesameSSO.exchangeCodeForToken store now "" st iu isc net).2.1
        now st).1 = true := by
  have h : SesameSSO.exchangeCodeForToken store now "" st iu isc net
      = (Except.error SSOError.authCodeRequired, store, []) := by
    unfold SesameSSO.exchangeCodeForToken
    simp
  exact ⟨h, by rw [h]; exact hvalid⟩

/-- C9 witness: a store holding the live state `"s"`. -/
theorem claim9_emptyCodeBeforeState_witness :
    (SesameSSO.validateState ⟨600000, 10000, [("s", ⟨JSVal.val "x", 100⟩)]⟩ 0 "s").1 = true ∧
    (SesameSSO.exchangeCodeForToken ⟨600000, 10000, [("s", ⟨JSVal.val "x", 100⟩)]⟩ 0 "" "s"
        true true netRejecting
      = (Except.error SSOError.authCodeRequired,
         ⟨600000, 10000, [("s", ⟨JSVal.val "x", 100⟩)]⟩, []) ∧
     (SesameSSO.validateState
        (SesameSSO.exchangeCodeForToken ⟨600000, 10000, [("s", ⟨JSVal.val "x", 100⟩)]⟩
            0 "" "s" true true netRejecting).2.1 0 "s").1 = true) :=
  ⟨by decide,
   claim9_emptyCodeBeforeState ⟨600000, 10000, [("s", ⟨JSVal.val "x", 100⟩)]⟩ 0 "s"
     true true netRejecting (by decide)⟩

/-- C8: with a valid stored state and a failing token endpoint, the
exchange issues exactly the token request and propagates the formatted
provider error, yet the state entry is already consumed (deleted during
validation, before the request): it is absent from the returned store,
and any retry with the same state fails with the CSRF error and issues
no request — the state is not restored on error. -/
theorem claim8_stateConsumedOnFailure (store : InMemoryTTLStore) (now : Nat)
    (code st : String) (iu isc : Bool) (net : NetOracles) (e : HttpErr)
    (hcode : code ≠ "")
    (hv : (SesameSSO.validateState store now st).1 = true)
    (he : net.token code = Except.error e) :
    SesameSSO.exchangeCodeForToken store now code st iu isc net
      = (Except.error (SSOError.oauthError (formatOAuthError e "token exchange")),
         (SesameSSO.validateState store now st).2, [Request.tokenPost code]) ∧
    mapGet (SesameSSO.exchangeCodeForToken store now code st iu isc
        net).2.1.store st = none ∧
    (∀ code2 now2 iu2 isc2 net2, code2 ≠ "" →
      SesameSSO.exchangeCodeForToken
          (SesameSSO.exchangeCodeForToken store now code st iu isc net).2.1
          now2 code2 st iu2 isc2 net2
        = (Except.error SSOError.invalidState,
           (SesameSSO.exchangeCodeForToken store now code st iu isc net).2.1,
           [])) := by
  have hmain : SesameSSO.exchangeCodeForToken store now code st iu isc net
      = (Except.error (SSOError.oauthError (formatOAuthError e "token exchange")),
         (SesameSSO.validateState store now st).2, [Request.tokenPost code]) := by
    unfold SesameSSO.exchangeCodeForToken SesameSSO.fetchToken
    simp [if_neg hcode, hv, he]
  have habs : mapGet (SesameSSO.exchangeCodeForToken store now code st iu isc
      net).2.1.store st = none := by
    rw [hmain]
    exact validateState_true_mapGet_none store now st hv
  refine ⟨hmain, habs, ?_⟩
  intro code2 now2 iu2 isc2 net2 hcode2
  have hvfalse : (SesameSSO.validateState
      (SesameSSO.exchangeCodeForToken store now code st iu isc net).2.1
      now2 st).1 = false := by
    rw [validateState_absent _ now2 st habs]
  have h2 := exchange_invalid
    (SesameSSO.exchangeCodeForToken store now code st iu isc net).2.1
    now2 code2 st iu2 isc2 net2 hcode2 hvfalse
  rw [h2, validateState_absent _ now2 st habs]

/-- C8 witness: live state `"s"`, code `"c"`, rejecting token endpoint. -/
theorem claim8_stateConsumedOnFailure_witness :
    ("c" : String) ≠ "" ∧
    (SesameSSO.validateState ⟨600000, 10000, [("s", ⟨JSVal.val "x", 100⟩)]⟩ 0 "s").1 = true ∧
    netRejecting.token "c"
      = Except.error ⟨some 400, some "invalid_grant", none, none, "Request failed"⟩ ∧
    mapGet (SesameSSO.exchangeCodeForToken ⟨600000, 10000, [("s", ⟨JSVal.val "x", 100⟩)]⟩
        0 "c" "s" true true netRejecting).2.1.store "s" = none :=
  ⟨by decide, by decide, rfl,
   (claim8_stateConsumedOnFailure ⟨600000, 10000, [("s", ⟨JSVal.val "x", 100⟩)]⟩ 0 "c" "s"
      true true netRejecting ⟨some 400, some "invalid_grant", none, none, "Request failed"⟩
      (by decide) (by decide) rfl).2.1⟩

theorem objLookup_objSet_self (o : List (String × String)) (k v : String) :
    objLookup (SesameSSO.objSet o k v) k = some v := by
  induction o with
  | nil => simp [SesameSSO.objSet, objLookup]
  | cons p o ih =>
    by_cases hp : p.1 = k
    · simp [SesameSSO.objSet, objLookup, hp]
    · simp [SesameSSO.objSet, objLookup, hp, ih]

theorem objLookup_objSet_ne (o : List (String × String)) (k v k2 : String)
    (h : k2 ≠ k) :
    objLookup (SesameSSO.objSet o k v) k2 = objLookup o k2 := by
  induction o with
  | nil => simp [SesameSSO.objSet, objLookup, Ne.symm h]
  | cons p o ih =>
    by_cases hp : p.1 = k
    · simp [SesameSSO.objSet, objLookup, hp, Ne.symm h]
    · simp [SesameSSO.objSet, objLookup, hp, ih]

theorem objLookup_fold_not_mem (extra : List (String × String))
    (o : List (String × String)) (k : String)
    (h : k ∉ extra.map Prod.fst) :
    objLookup (extra.foldl (fun acc p => SesameSSO.objSet acc p.1 p.2) o) k
      = objLookup o k := by
  induction extra generalizing o with
  | nil => rfl
  | cons p rest ih =>
    have hk : k ≠ p.1 := by
      intro hE
      exact h (by simp [hE])
    have h2 : k ∉ rest.map Prod.fst := by
      intro hm
      exact h (by simp [hm])
    simp only [List.foldl_cons]
    rw [ih _ h2, objLookup_objSet_ne _ _ _ _ hk]

theorem objLookup_fold_mem (extra : List (String × String))
    (o : List (String × String)) (k v : String)
    (hnd : (extra.map Prod.fst).Nodup) (hmem : (k, v) ∈ extra) :
    objLookup (extra.foldl (fun acc p => SesameSSO.objSet acc p.1 p.2) o) k
      = some v := by
  induction extra generalizing o with
  | nil => cases hmem
  | cons p rest ih =>
    simp only [List.foldl_cons]
    have hnd2 : p.1 ∉ rest.map Prod.fst ∧ (rest.map Prod.fst).Nodup := by
      rw [List.map_cons] at hnd
      exact List.nodup_cons.mp hnd
    rcases List.mem_cons.mp hmem with hEq | hTail
    · have hk : k ∉ rest.map Prod.fst := by
        rw [show k = p.1 from by rw [← hEq]]
        exact hnd2.1
      rw [objLookup_fold_not_mem rest _ k hk, ← hEq, objLookup_objSet_self]
    · exact ih _ hnd2.2 hTail

/-- C4 counterexample: a caller-supplied extra parameter
`scope = "x"` together with the per-call scope `"y"`. The claim says an
extra parameter overrides any preceding key including `scope`
(last-write-wins for the caller), so the query should carry
`scope = "x"`; the code assigns `params.scope = finalScope` after
spreading the extras, so the query carries `scope = "y"`. -/
theorem claim4_counterexample_scopeOverride :
    objLookup (SesameSSO.getLoginUrlParams ⟨"cid", "ruri", ""⟩ (some "y")
        [("scope", "x")] "st") "scope" = some "y" ∧
    objLookup (SesameSSO.getLoginUrlParams ⟨"cid", "ruri", ""⟩ (some "y")
        [("scope", "x")] "st") "scope" ≠ some "x" := by
  exact ⟨rfl, by decide⟩

/-- C4 amended: the query contains `client_id`, `redirect_uri`,
`response_type=code` and the fresh state, each overridable by a
caller-supplied extra parameter (last-write-wins); an extra `scope`
parameter, however, survives only when the resolved scope is empty —
a non-empty resolved scope is assigned after the extras and overrides
it; and when the resolved scope is empty and no extra supplies `scope`,
the `scope` key is omitted entirely. -/
theorem claim4_loginUrlParams_amended (cfg : SSOConfig) (scope : Option String)
    (extra : List (String × String)) (st : String)
    (hnd : (extra.map Prod.fst).Nodup) :
    (∀ k, k ∉ extra.map Prod.fst → k ≠ "scope" →
      objLookup (SesameSSO.getLoginUrlParams cfg scope extra st) k
        = objLookup [("client_id", cfg.clientId), ("redirect_uri", cfg.redirectUri),
                     ("response_type", "code"), ("state", st)] k) ∧
    (∀ k v, (k, v) ∈ extra → (k ≠ "scope" ∨ scope.getD cfg.defaultScope = "") →
      objLookup (SesameSSO.getLoginUrlParams cfg scope extra st) k = some v) ∧
    (scope.getD cfg.defaultScope ≠ "" →
      objLookup (SesameSSO.getLoginUrlParams cfg scope extra st) "scope"
        = some (scope.getD cfg.defaultScope)) ∧
    (scope.getD cfg.defaultScope = "" → "scope" ∉ extra.map Prod.fst →
      objLookup (SesameSSO.getLoginUrlParams cfg scope extra st) "scope" = none) := by
  unfold SesameSSO.getLoginUrlParams
  by_cases hfs : scope.getD cfg.defaultScope = ""
  · simp only [hfs, if_true]
    refine ⟨?_, ?_, ?_, ?_⟩
    · intro k hk _
      exact objLookup_fold_not_mem extra _ k hk
    · intro k v hmem _
      exact objLookup_fold_mem extra _ k v hnd hmem
    · intro hcontra
      exact absurd rfl hcontra
    · intro _ hns
      rw [objLookup_fold_not_mem extra _ _ hns]
      simp [objLookup]
  · simp only [hfs, if_false]
    refine ⟨?_, ?_, ?_, ?_⟩
    · intro k hk hks
      rw [objLookup_objSet_ne _ _ _ _ hks]
      exact objLookup_fold_not_mem extra _ k hk
    · intro k v hmem hor
      have hks : k ≠ "scope" := by
        rcases hor with h | h
        · exact h
        · exact h.elim
      rw [objLookup_objSet_ne _ _ _ _ hks]
      exact objLookup_fold_mem extra _ k v hnd hmem
    · intro _
      exact objLookup_objSet_self _ _ _
    · intro hcontra
      exact hcontra.elim

/-- C4 amended witness: default scope `"openid"`, extras
`prompt=login` and `scope=x` (distinct keys). -/
theorem claim4_loginUrlParams_amended_witness :
    (([("prompt", "login"), ("scope", "x")] :
        List (String × String)).map Prod.fst).Nodup ∧
    ((∀ k, k ∉ ([("prompt", "login"), ("scope", "x")] :
          List (String × String)).map Prod.fst → k ≠ "scope" →
        objLookup (SesameSSO.getLoginUrlParams ⟨"cid", "ruri", "openid"⟩ none
            [("prompt", "login"), ("scope", "x")] "st") k
          = objLookup [("client_id", "cid"), ("redirect_uri", "ruri"),
                       ("response_type", "code"), ("state", "st")] k) ∧
     (∀ k v, (k, v) ∈ ([("prompt", "login"), ("scope", "x")] :
          List (String × String)) →
        (k ≠ "scope" ∨ (none : Option String).getD "openid" = "") →
        objLookup (SesameSSO.getLoginUrlParams ⟨"cid", "ruri", "openid"⟩ none
            [("prompt", "login"), ("scope", "x")] "st") k = some v) ∧
     ((none : Option String).getD "openid" ≠ "" →
        objLookup (SesameSSO.getLoginUrlParams ⟨"cid", "ruri", "openid"⟩ none
            [("prompt", "login"), ("scope", "x")] "st") "scope"
          = some ((none : Option String).getD "openid")) ∧
     ((none : Option String).getD "openid" = "" →
        "scope" ∉ ([("prompt", "login"), ("scope", "x")] :
          List (String × String)).map Prod.fst →
        objLookup (SesameSSO.getLoginUrlParams ⟨"cid", "ruri", "openid"⟩ none
            [("prompt", "login"), ("scope", "x")] "st") "scope" = none)) :=
  ⟨by decide,
   claim4_loginUrlParams_amended ⟨"cid", "ruri", "openid"⟩ none
     [("prompt", "login"), ("scope", "x")] "st" (by decide)⟩
